import Mathlib

/-!
# Verification of the mpv-web-client runtime supervision layer

A shallow embedding, in Lean 4, of the core components of the
`mpv-web-client` repository:

* `Semver` parsing and comparison (`src/frontend/pkg/manifest/semver.rs`),
* the frontend package repository install pipeline
  (`src/frontend/pkg/repository.rs`),
* the API-server process registry (`src/api_servers.rs`),
* the archive codec entry-name computation (`src/common/tarflate.rs`),
* the idle-shutdown accept loop (`src/server.rs`),

together with theorems settling the behavioural claims about those
components.  Rust machine integers (`usize`, 64-bit) are modelled as `Nat`
with an explicit `2 ^ 64` bound where overflow matters; fallible Rust code
returns `Except`; stateful code is modelled by explicit state passing.
-/

namespace MpvWebClient

/-! ## Semver — embedded from `src/frontend/pkg/manifest/semver.rs`

The Rust struct `Semver { major: usize, minor: usize, patch: usize }`
derives `PartialEq` and `PartialOrd`; the derived comparison is the
lexicographic comparison of the fields in declaration order.
-/

structure Semver where
  major : Nat
  minor : Nat
  patch : Nat
deriving DecidableEq, Repr

/-- Rust `usize` on the target platform is 64-bit; `str::parse::<usize>` fails
with a positive-overflow error for values `≥ 2 ^ 64`. -/
def USIZE_BOUND : Nat := 2 ^ 64

/-- Embedding of Rust `str::parse::<usize>` (`usize::from_str`): an
optional leading `+` sign followed by one or more ASCII digits, rejecting
the empty digit string, any non-digit character, and overflow. -/
def parseUsize (s : String) : Option Nat :=
  let ds : List Char :=
    match s.toList with
    | '+' :: rest => rest
    | rest => rest
  if ds = [] then none
  else if ds.all (fun c => c.isDigit) then
    let v : Nat := ds.foldl (fun acc c => acc * 10 + (c.toNat - 48)) 0
    if v < USIZE_BOUND then some v else none
  else none

/-- Helper for `splitOnDot`: splits a character list on `.`, accumulating
the current chunk in reverse.  Splitting the empty input yields a single
empty chunk, matching Rust `str::split`. -/
def splitOnDotAux : List Char → List Char → List String
  | [], acc => [String.mk acc.reverse]
  | c :: rest, acc =>
    if c = '.' then String.mk acc.reverse :: splitOnDotAux rest []
    else splitOnDotAux rest (c :: acc)

/-- Rust `str::split(".")` on the separator `VERSION_SEMVER_SEPARATOR`:
maximal runs between dots, with empty chunks for leading, trailing and
adjacent dots (`"" ↦ [""]`, `"." ↦ ["", ""]`, `"1..2" ↦ ["1", "", "2"]`). -/
def splitOnDot (s : String) : List String := splitOnDotAux s.toList []

/-- One pull of the `split_version` iterator in `Semver::from_string`:
`split_version.next().unwrap_or(Ok(0))?`.  A missing chunk defaults to
`0`; a present chunk must parse as `usize`.  Because the Rust iterator is
lazy and is pulled exactly three times, chunks after the third are never
parsed — this embedding therefore only ever inspects the first three
elements of the split. -/
def parseChunk (source : String) (chunk : Option String) : Except String Nat :=
  match chunk with
  | none => Except.ok 0
  | some c =>
    match parseUsize c with
    | some n => Except.ok n
    | none =>
      Except.error ("could not parse source string of " ++ source ++ " as semver")

/-- Embedding of `Semver::from_string`. -/
def Semver.from_string (source : String) : Except String Semver :=
  let chunks := splitOnDot source
  match parseChunk source chunks[0]? with
  | Except.error e => Except.error e
  | Except.ok major =>
    match parseChunk source chunks[1]? with
    | Except.error e => Except.error e
    | Except.ok minor =>
      match parseChunk source chunks[2]? with
      | Except.error e => Except.error e
      | Except.ok patch => Except.ok { major := major, minor := minor, patch := patch }

/-- The derived `PartialOrd` comparison on `Semver`: fields are compared
in declaration order (`major`, then `minor`, then `patch`), the first
strict inequality deciding the result. -/
def Semver.cmp (a b : Semver) : Ordering :=
  if a.major < b.major then Ordering.lt
  else if b.major < a.major then Ordering.gt
  else if a.minor < b.minor then Ordering.lt
  else if b.minor < a.minor then Ordering.gt
  else if a.patch < b.patch then Ordering.lt
  else if b.patch < a.patch then Ordering.gt
  else Ordering.eq

/-- The Rust `<` operator on `Semver` (via the derived `PartialOrd`). -/
def Semver.lt (a b : Semver) : Prop := Semver.cmp a b = Ordering.lt

instance (a b : Semver) : Decidable (Semver.lt a b) :=
  inferInstanceAs (Decidable (Semver.cmp a b = Ordering.lt))

/-- Embedding of `Semver::string_representation`: the three components
joined by `"."`. -/
def Semver.string_representation (v : Semver) : String :=
  toString v.major ++ "." ++ toString v.minor ++ "." ++ toString v.patch

/-- The derived comparison is exactly the lexicographic order on the
`(major, minor, patch)` triple. -/
theorem Semver.lt_iff_lex (a b : Semver) :
    Semver.lt a b ↔
      (a.major < b.major ∨
        (a.major = b.major ∧
          (a.minor < b.minor ∨ (a.minor = b.minor ∧ a.patch < b.patch)))) := by
  unfold Semver.lt Semver.cmp
  split_ifs with h1 h2 h3 h4 h5 h6 <;> simp <;> omega

/-- C1: Semver comparison is a strict total order (irreflexive, transitive,
connected) equal to lexicographic comparison of the `(major, minor, patch)`
triple; parsing a dotted-decimal string with fewer than three components
defaults the missing trailing components to 0, so `"1.2.3" < "1.3.0" <
"2.0.0"` and `parse("1.2") = parse("1.2.0")`. -/
theorem C1_semver_strict_total_order_and_parse_defaults :
    (∀ a : Semver, ¬ Semver.lt a a) ∧
    (∀ a b c : Semver, Semver.lt a b → Semver.lt b c → Semver.lt a c) ∧
    (∀ a b : Semver, a ≠ b → Semver.lt a b ∨ Semver.lt b a) ∧
    (∀ a b : Semver, Semver.lt a b ↔
      (a.major < b.major ∨
        (a.major = b.major ∧
          (a.minor < b.minor ∨ (a.minor = b.minor ∧ a.patch < b.patch))))) ∧
    (Semver.from_string "1.2.3" = Except.ok ⟨1, 2, 3⟩ ∧
      Semver.from_string "1.3.0" = Except.ok ⟨1, 3, 0⟩ ∧
      Semver.from_string "2.0.0" = Except.ok ⟨2, 0, 0⟩ ∧
      Semver.lt ⟨1, 2, 3⟩ ⟨1, 3, 0⟩ ∧ Semver.lt ⟨1, 3, 0⟩ ⟨2, 0, 0⟩) ∧
    Semver.from_string "1.2" = Semver.from_string "1.2.0" := by
  refine ⟨?_, ?_, ?_, Semver.lt_iff_lex, ⟨rfl, rfl, rfl, by decide, by decide⟩, rfl⟩
  · intro a h
    rw [Semver.lt_iff_lex] at h
    omega
  · intro a b c hab hbc
    rw [Semver.lt_iff_lex] at hab hbc ⊢
    omega
  · intro a b hne
    rw [Semver.lt_iff_lex, Semver.lt_iff_lex]
    have : ¬ (a.major = b.major ∧ a.minor = b.minor ∧ a.patch = b.patch) := by
      intro ⟨h1, h2, h3⟩
      exact hne (by cases a; cases b; simp_all)
    omega

/-- Witness for C1: transitivity applied at the concrete triple from the
claim, with both hypotheses discharged by evaluation. -/
theorem C1_witness : Semver.lt ⟨1, 2, 3⟩ ⟨2, 0, 0⟩ :=
  C1_semver_strict_total_order_and_parse_defaults.2.1 ⟨1, 2, 3⟩ ⟨1, 3, 0⟩ ⟨2, 0, 0⟩
    (by decide) (by decide)

/-- C10: the split iterator in `from_string` is pulled exactly three
times, so every dot-separated component after the third is ignored and
never parsed: whenever the first three components of the split each parse
as an unsigned integer, `from_string` succeeds with exactly those three
components — in particular `"1.2.3.4"` and `"1.2.3.notanumber"` both
parse as `(1, 2, 3)`. -/
theorem C10_from_string_ignores_components_after_third :
    (∀ (s : String) (c0 c1 c2 : String) (n0 n1 n2 : Nat),
      (splitOnDot s)[0]? = some c0 → parseUsize c0 = some n0 →
      (splitOnDot s)[1]? = some c1 → parseUsize c1 = some n1 →
      (splitOnDot s)[2]? = some c2 → parseUsize c2 = some n2 →
      Semver.from_string s = Except.ok ⟨n0, n1, n2⟩) ∧
    Semver.from_string "1.2.3.4" = Except.ok ⟨1, 2, 3⟩ ∧
    Semver.from_string "1.2.3.notanumber" = Except.ok ⟨1, 2, 3⟩ := by
  refine ⟨?_, rfl, rfl⟩
  intro s c0 c1 c2 n0 n1 n2 h0 hp0 h1 hp1 h2 hp2
  unfold Semver.from_string
  simp only [h0, h1, h2, parseChunk, hp0, hp1, hp2]

/-- Witness for C10: the universally quantified part applied to the
concrete input `"9.8.7.junk"`, whose fourth component is not a number. -/
theorem C10_witness : Semver.from_string "9.8.7.junk" = Except.ok ⟨9, 8, 7⟩ :=
  C10_from_string_ignores_components_after_third.1 "9.8.7.junk" "9" "8" "7" 9 8 7
    (by decide) (by decide) (by decide) (by decide) (by decide) (by decide)

/-! ## Package repository — embedded from `src/frontend/pkg/repository.rs`
and `src/frontend/pkg/manifest.rs`

The on-disk state relevant to the install pipeline is the manifest file at
the project home (`pkg_manifest.toml`), the manifest inside the frontend
temp (staging) directory, and the manifest copied into the per-version
content directory `frontend_dir/<version>/`.  A manifest file that is
missing or unparsable is modelled as `none` (both surface as a non-
`PkgOutdated` error from `parse_package_manifest`; the claims under
verification never distinguish the two).  File I/O that the pipeline
performs on directories other than these manifests (bulk content copy) is
not observable by the claims and succeeds in this model. -/

/-- Embedding of `VersionInfo` from `src/frontend/pkg/manifest.rs`. -/
structure VersionInfo where
  version : Semver
  commit : String
deriving DecidableEq, Repr

/-- Embedding of `Manifest` from `src/frontend/pkg/manifest.rs`. -/
structure Manifest where
  version_info : VersionInfo
deriving DecidableEq, Repr

/-- Embedding of `Package` from `src/frontend/pkg/repository.rs`. -/
structure Package where
  manifest : Manifest
deriving DecidableEq, Repr

/-- Embedding of `FrontendPkgErr` from `src/frontend.rs`.  Payloads that
carry `std::io::Error` values are dropped; the `PkgOutdated` variant keeps
its two version strings (provided, served). -/
inductive FrontendPkgErr where
  | IndexNotFound
  | PkgInstallFailed (msg : String)
  | PkgNotProvided
  | PkgUnpackErr
  | PkgInvalid (msg : String)
  | PkgOutdated (provided : String) (served : String)
  | ManifestInvalid (msg : String)
  | HomeDirInaccessible
  | RemoteReleaseCheckFailure
  /-- Constructed by `PackagesRepository::get_installed` / `get_temp` in
  `repository.rs` ("there is no package installed" / "there is no
  temporary package"); the declaring enum iteration lives in the frontend
  module root, whose declaration site is outside the provided sources, but
  the variant's shape is fixed by its construction sites in
  `repository.rs`. -/
  | PackageUnavailable (msg : String)
deriving DecidableEq, Repr

/-- Embedding of `PackagesRepository`: the two lazily-loaded caches. -/
structure PackagesRepository where
  installed : Option Package
  temp : Option Package
deriving DecidableEq, Repr

/-- Generic association-list lookup keyed by strings; models a map
lookup. -/
def alistLookup {β : Type} (k : String) : List (String × β) → Option β
  | [] => none
  | (k', v) :: rest => if k' = k then some v else alistLookup k rest

/-- Generic association-list removal of a key; models a map remove. -/
def alistRemove {β : Type} (k : String) : List (String × β) → List (String × β)
  | [] => []
  | (k', v) :: rest =>
    if k' = k then alistRemove k rest else (k', v) :: alistRemove k rest

/-- Generic association-list insert that replaces any previous binding of
the key; models a map insert. -/
def alistInsert {β : Type} (k : String) (v : β) (l : List (String × β)) :
    List (String × β) :=
  (k, v) :: alistRemove k l

/-- The manifest files the install pipeline reads and writes. -/
structure RepoFs where
  /-- The file `<project home>/pkg_manifest.toml` — the installed manifest,
  authoritative for the installed version. -/
  homeManifest : Option Manifest
  /-- The file `<frontend temp dir>/pkg_manifest.toml` — the staged manifest. -/
  tempManifest : Option Manifest
  /-- The file `frontend_dir/<version>/pkg_manifest.toml` for each version whose
  content directory holds a copied manifest, keyed by version string. -/
  versionedManifests : List (String × Manifest)
deriving DecidableEq, Repr

/-- Repository caches plus the manifest files on disk. -/
structure RepoWorld where
  repo : PackagesRepository
  fs : RepoFs
deriving DecidableEq, Repr

/-- Embedding of `parse_package_manifest` applied to a manifest file
modelled as `Option Manifest`: a missing (or unparsable) file fails, a
present file yields its parsed manifest. -/
def parse_package_manifest (file : Option Manifest) : Except FrontendPkgErr Manifest :=
  match file with
  | none => Except.error FrontendPkgErr.PkgUnpackErr
  | some m => Except.ok m

/-- Embedding of `PackagesRepository::get_installed`. -/
def PackagesRepository.get_installed (r : PackagesRepository) :
    Except FrontendPkgErr Package :=
  match r.installed with
  | some pkg => Except.ok pkg
  | none =>
    Except.error (FrontendPkgErr.PackageUnavailable "there is no package installed")

/-- Embedding of `PackagesRepository::get_temp`. -/
def PackagesRepository.get_temp (r : PackagesRepository) :
    Except FrontendPkgErr Package :=
  match r.temp with
  | some pkg => Except.ok pkg
  | none =>
    Except.error (FrontendPkgErr.PackageUnavailable "there is no temporary package")

/-- Embedding of `PackagesRepository::check_installed`: parse the home
manifest; on success cache it as the installed package, on failure leave
the cache untouched. -/
def check_installed (w : RepoWorld) : Except FrontendPkgErr Package × RepoWorld :=
  match parse_package_manifest w.fs.homeManifest with
  | Except.ok m =>
    let pkg : Package := { manifest := m }
    (Except.ok pkg, { w with repo := { w.repo with installed := some pkg } })
  | Except.error e => (Except.error e, w)

/-- Embedding of `PackagesRepository::check_temp`: parse the staged
manifest; on success cache it as the temp package. -/
def check_temp (w : RepoWorld) : Except FrontendPkgErr Package × RepoWorld :=
  match parse_package_manifest w.fs.tempManifest with
  | Except.ok m =>
    let pkg : Package := { manifest := m }
    (Except.ok pkg, { w with repo := { w.repo with temp := some pkg } })
  | Except.error e => (Except.error e, w)

/-- Embedding of
`PackagesRepository::check_temp_pkg_manifest_against_installed_one`.
Both versions are read from the caches; an unavailable installed package
is only warned about and the check passes; a staged version strictly
older than the installed one fails with `PkgOutdated` carrying the two
version strings (staged first, installed second). -/
def check_temp_pkg_manifest_against_installed_one (r : PackagesRepository) :
    Except FrontendPkgErr Unit :=
  match r.get_temp with
  | Except.error e => Except.error e
  | Except.ok tpkg =>
    match r.get_installed with
    | Except.error _ => Except.ok ()
    | Except.ok ipkg =>
      if Semver.lt tpkg.manifest.version_info.version ipkg.manifest.version_info.version
      then
        Except.error (FrontendPkgErr.PkgOutdated
          tpkg.manifest.version_info.version.string_representation
          ipkg.manifest.version_info.version.string_representation)
      else Except.ok ()

/-- Embedding of `copy_frontend_pkg_to_home`: the staged tree — including
its manifest — is copied (not moved) into
`frontend_dir/<version>/`; only the manifest copy is observable to the
claims. -/
def copy_frontend_pkg_to_home (version : Semver) (fs : RepoFs) : RepoFs :=
  match fs.tempManifest with
  | some m =>
    { fs with versionedManifests :=
        alistInsert version.string_representation m fs.versionedManifests }
  | none => fs

/-- Embedding of `move_manifest_to_project_home`: rename
`frontend_dir/<version>/pkg_manifest.toml` to
`<project home>/pkg_manifest.toml`.  The rename fails if the source file
does not exist; on success the source entry disappears and the home
manifest is replaced. -/
def move_manifest_to_project_home (version : Semver) (fs : RepoFs) :
    Except FrontendPkgErr Unit × RepoFs :=
  match alistLookup version.string_representation fs.versionedManifests with
  | none => (Except.error FrontendPkgErr.HomeDirInaccessible, fs)
  | some m =>
    (Except.ok (),
      { fs with
          homeManifest := some m,
          versionedManifests :=
            alistRemove version.string_representation fs.versionedManifests })

/-- Embedding of `PackagesRepository::install_package`.  The extraction
step (`extract_frontend_pkg` on a blocking task) is summarised by its
outcome `extraction`: an error aborts the pipeline, a success writes the
archive's content into the temp directory, `some m` being the staged
manifest the archive contained (`none` if the archive held no parsable
manifest).  The remaining steps follow the source line by line:
`check_temp`, the version check (with the `force_outdated` override that
only bypasses `PkgOutdated`), the content copy, the temp-directory
removal and temp-cache clear, the manifest rename, and the final
`check_installed` reload. -/
def install_package (w : RepoWorld)
    (extraction : Except FrontendPkgErr (Option Manifest)) (force_outdated : Bool) :
    Except FrontendPkgErr Unit × RepoWorld :=
  match extraction with
  | Except.error e => (Except.error e, w)
  | Except.ok archiveManifest =>
    let w1 : RepoWorld := { w with fs := { w.fs with tempManifest := archiveManifest } }
    match check_temp w1 with
    | (Except.error e, w2) => (Except.error e, w2)
    | (Except.ok tpkg, w2) =>
      let temp_version := tpkg.manifest.version_info.version
      let versionCheck :=
        match check_temp_pkg_manifest_against_installed_one w2.repo with
        | Except.ok () => Except.ok ()
        | Except.error e =>
          match e with
          | FrontendPkgErr.PkgOutdated p s =>
            if force_outdated then Except.ok ()
            else Except.error (FrontendPkgErr.PkgOutdated p s)
          | other => Except.error other
      match versionCheck with
      | Except.error e => (Except.error e, w2)
      | Except.ok () =>
        let w3 : RepoWorld := { w2 with fs := copy_frontend_pkg_to_home temp_version w2.fs }
        let w4 : RepoWorld :=
          { repo := { w3.repo with temp := none },
            fs := { w3.fs with tempManifest := none } }
        match move_manifest_to_project_home temp_version w4.fs with
        | (Except.error e, fs5) => (Except.error e, { w4 with fs := fs5 })
        | (Except.ok (), fs5) =>
          let w5 : RepoWorld := { w4 with fs := fs5 }
          match check_installed w5 with
          | (Except.error e, w6) => (Except.error e, w6)
          | (Except.ok _, w6) => (Except.ok (), w6)

/-- Equality of `Except` values is decidable when it is for both the
error and the value type (used to evaluate the embedded functions inside
`decide`). -/
instance {ε α : Type} [DecidableEq ε] [DecidableEq α] : DecidableEq (Except ε α) := fun x y =>
  match x, y with
  | Except.ok a, Except.ok b =>
    if h : a = b then isTrue (by rw [h])
    else isFalse (fun hc => by injection hc; contradiction)
  | Except.error a, Except.error b =>
    if h : a = b then isTrue (by rw [h])
    else isFalse (fun hc => by injection hc; contradiction)
  | Except.ok _, Except.error _ => isFalse (fun hc => Except.noConfusion hc)
  | Except.error _, Except.ok _ => isFalse (fun hc => Except.noConfusion hc)

/-- Irreflexivity of the derived `Semver` comparison. -/
theorem Semver.lt_self_false (a : Semver) : ¬ Semver.lt a a := by
  rw [Semver.lt_iff_lex]
  omega

/-- Looking up a key right after inserting it yields the inserted value. -/
theorem alistLookup_insert_self {β : Type} (k : String) (v : β) (l : List (String × β)) :
    alistLookup k (alistInsert k v l) = some v := by
  simp [alistInsert, alistLookup]

/-- C2-counterexample: with version `1.0.0` installed, installing a staged
package of the same version `1.0.0` with `force_outdated = false` does
NOT fail with a version-conflict error — it succeeds, because
`check_temp_pkg_manifest_against_installed_one` only rejects strictly
older staged versions.  This refutes the claim at this input. -/
theorem C2_counterexample_equal_version_install_succeeds :
    (install_package
      { repo := { installed := some ⟨{ version_info := { version := ⟨1, 0, 0⟩, commit := "abc" } }⟩,
                  temp := none },
        fs := { homeManifest := some { version_info := { version := ⟨1, 0, 0⟩, commit := "abc" } },
                tempManifest := none, versionedManifests := [] } }
      (Except.ok (some { version_info := { version := ⟨1, 0, 0⟩, commit := "abc" } }))
      false).fst = Except.ok () ∧
    (install_package
      { repo := { installed := some ⟨{ version_info := { version := ⟨1, 0, 0⟩, commit := "abc" } }⟩,
                  temp := none },
        fs := { homeManifest := some { version_info := { version := ⟨1, 0, 0⟩, commit := "abc" } },
                tempManifest := none, versionedManifests := [] } }
      (Except.ok (some { version_info := { version := ⟨1, 0, 0⟩, commit := "abc" } }))
      false).fst ≠ Except.error (FrontendPkgErr.PkgOutdated "1.0.0" "1.0.0") := by
  decide

/-- C2-amended: with a package of version `V` installed, installing a
staged package of the same version `V` with `force_outdated = false`
succeeds (the equal-version case passes the check; only strictly older
staged versions are rejected), and the installed manifest reports the
same version `V` afterward. -/
theorem C2_amended_equal_version_reinstall_succeeds (w : RepoWorld) (m mStaged : Manifest)
    (hinst : w.repo.installed = some ⟨m⟩)
    (hver : mStaged.version_info.version = m.version_info.version) :
    (install_package w (Except.ok (some mStaged)) false).fst = Except.ok () ∧
    (install_package w (Except.ok (some mStaged)) false).snd.repo.installed = some ⟨mStaged⟩ ∧
    ((install_package w (Except.ok (some mStaged)) false).snd.repo.installed.map
      (fun p => p.manifest.version_info.version)) = some m.version_info.version := by
  simp [install_package, check_temp, parse_package_manifest,
    check_temp_pkg_manifest_against_installed_one, PackagesRepository.get_temp,
    PackagesRepository.get_installed, hinst, Semver.lt_self_false,
    copy_frontend_pkg_to_home, move_manifest_to_project_home,
    alistLookup_insert_self, check_installed, hver]

/-- Witness for C2-amended: applied to a concrete world with installed
version `1.0.0` and a staged manifest of the same version. -/
theorem C2_amended_witness :
    (install_package
      { repo := { installed := some ⟨{ version_info := { version := ⟨1, 0, 0⟩, commit := "abc" } }⟩,
                  temp := none },
        fs := { homeManifest := some { version_info := { version := ⟨1, 0, 0⟩, commit := "abc" } },
                tempManifest := none, versionedManifests := [] } }
      (Except.ok (some { version_info := { version := ⟨1, 0, 0⟩, commit := "xyz" } }))
      false).fst = Except.ok () :=
  (C2_amended_equal_version_reinstall_succeeds
    { repo := { installed := some ⟨{ version_info := { version := ⟨1, 0, 0⟩, commit := "abc" } }⟩,
                temp := none },
      fs := { homeManifest := some { version_info := { version := ⟨1, 0, 0⟩, commit := "abc" } },
              tempManifest := none, versionedManifests := [] } }
    { version_info := { version := ⟨1, 0, 0⟩, commit := "abc" } }
    { version_info := { version := ⟨1, 0, 0⟩, commit := "xyz" } }
    rfl rfl).1

/-- C3: with installed version `V1` and a staged package of version
`V0 < V1`, `install_package` with `force_outdated = false` fails with the
`PkgOutdated` error carrying both version strings (staged first,
installed second) and both the installed cache and the home manifest
still report `V1`; with `force_outdated = true` it succeeds and the
installed cache and home manifest report `V0`. -/
theorem C3_install_monotonicity (w : RepoWorld) (m1 m0 : Manifest) (force : Bool)
    (hinst : w.repo.installed = some ⟨m1⟩)
    (hhome : w.fs.homeManifest = some m1)
    (hlt : Semver.lt m0.version_info.version m1.version_info.version) :
    (force = false →
      (install_package w (Except.ok (some m0)) force).fst =
        Except.error (FrontendPkgErr.PkgOutdated
          m0.version_info.version.string_representation
          m1.version_info.version.string_representation) ∧
      (install_package w (Except.ok (some m0)) force).snd.repo.installed = some ⟨m1⟩ ∧
      (install_package w (Except.ok (some m0)) force).snd.fs.homeManifest = some m1) ∧
    (force = true →
      (install_package w (Except.ok (some m0)) force).fst = Except.ok () ∧
      (install_package w (Except.ok (some m0)) force).snd.repo.installed = some ⟨m0⟩ ∧
      (install_package w (Except.ok (some m0)) force).snd.fs.homeManifest = some m0) := by
  cases force
  · refine ⟨fun _ => ?_, fun h => Bool.noConfusion h⟩
    simp [install_package, check_temp, parse_package_manifest,
      check_temp_pkg_manifest_against_installed_one, PackagesRepository.get_temp,
      PackagesRepository.get_installed, hinst, hhome, hlt]
  · refine ⟨fun h => Bool.noConfusion h, fun _ => ?_⟩
    simp [install_package, check_temp, parse_package_manifest,
      check_temp_pkg_manifest_against_installed_one, PackagesRepository.get_temp,
      PackagesRepository.get_installed, hinst, hlt, copy_frontend_pkg_to_home,
      move_manifest_to_project_home, alistLookup_insert_self, check_installed]

/-- Witness for C3: the theorem applied at installed version `1.0.0`,
staged version `0.9.0`, `force_outdated = false`. -/
theorem C3_witness :
    (install_package
      { repo := { installed := some ⟨{ version_info := { version := ⟨1, 0, 0⟩, commit := "abc" } }⟩,
                  temp := none },
        fs := { homeManifest := some { version_info := { version := ⟨1, 0, 0⟩, commit := "abc" } },
                tempManifest := none, versionedManifests := [] } }
      (Except.ok (some { version_info := { version := ⟨0, 9, 0⟩, commit := "old" } }))
      false).fst = Except.error (FrontendPkgErr.PkgOutdated "0.9.0" "1.0.0") :=
  ((C3_install_monotonicity
    { repo := { installed := some ⟨{ version_info := { version := ⟨1, 0, 0⟩, commit := "abc" } }⟩,
                temp := none },
      fs := { homeManifest := some { version_info := { version := ⟨1, 0, 0⟩, commit := "abc" } },
              tempManifest := none, versionedManifests := [] } }
    { version_info := { version := ⟨1, 0, 0⟩, commit := "abc" } }
    { version_info := { version := ⟨0, 9, 0⟩, commit := "old" } }
    false rfl rfl (by decide)).1 rfl).1

/-! ## Process registry — embedded from `src/api_servers.rs`

`ApiServersService` owns a map `name → ApiServerInstance` (a `HashMap` in
the source, modelled as an association list whose insert replaces any
previous binding of the key), a logs directory, and the accumulated
log-writer task handles (only their number is observable here).  The logs
directory contents are modelled as an association list from file name to
entry; the background byte-copy tasks only append bytes to already-created
files and are not otherwise observable by the claims, so file contents are
carried as opaque strings. -/

/-- The `tokio::process::Child` handle: `id()` yields the OS pid, or
`None` when the process has already been reaped. -/
structure ChildHandle where
  id : Option Nat
deriving DecidableEq, Repr

/-- Embedding of `ApiServerInstance`.  The source field `local` is a Lean
keyword and is rendered `isLocal`. -/
structure ApiServerInstance where
  isLocal : Bool
  address : String
  handle : ChildHandle
deriving DecidableEq, Repr

/-- A file in the logs directory: either a plain log file with its byte
content, or a produced gzip-tar archive with its named entries. -/
inductive FsEntry where
  | file (content : String)
  | archive (entries : List (String × String))
deriving DecidableEq, Repr

/-- Embedding of `ApiServersService` (the logs directory path itself is
fixed at construction and plays no role beyond prefixing paths, so it is
not carried). -/
structure ApiServersService where
  instances : List (String × ApiServerInstance)
  logsJoinHandles : Nat
deriving DecidableEq, Repr

/-- The registry plus the files of its logs directory. -/
structure RegistryWorld where
  svc : ApiServersService
  logsFs : List (String × FsEntry)
deriving DecidableEq, Repr

/-- Embedding of `ApiServersService::new`. -/
def ApiServersService.new : ApiServersService :=
  { instances := [], logsJoinHandles := 0 }

/-- Embedding of `ServerArguments`. -/
structure ServerArguments where
  port : Nat
  dir : List String
  watch_dir : Bool
deriving DecidableEq, Repr

/-- The address string the spawned worker listens on: the fixed local IP
joined with the configured port by a colon. -/
def buildAddress (port : Nat) : String :=
  "127.0.0.1:" ++ toString port

/-- The command line built by `spawn`: the address flag, one `--dir` flag
per directory entry, and the optional watch flag. -/
def buildCmdArgs (args : ServerArguments) : List String :=
  ["--addr", buildAddress args.port] ++
    (args.dir.map (fun d => ["--dir", d])).flatten ++
    (if args.watch_dir then ["--watch-dir"] else [])

/-- Embedding of `ApiServersService::get_output_stream_filenames`: the names of the two
raw log files for an instance. -/
def get_output_stream_filenames (name : String) : String × String :=
  ("mwa_" ++ name ++ "_stdout", "mwa_" ++ name ++ "_stderr")

/-- Embedding of `get_stream_file_writer` on success: the open options use
`create(true)` without truncation, so an absent file is created empty and
an existing file is left as is. -/
def openWriteCreate (fname : String) (fs : List (String × FsEntry)) :
    List (String × FsEntry) :=
  match alistLookup fname fs with
  | some _ => fs
  | none => alistInsert fname (FsEntry.file "") fs

/-- The outcomes of the environment-dependent effects inside `spawn`:
whether the worker binary launched (with the pid the OS assigned), and
whether each of the two log files could be opened. -/
structure SpawnEnv where
  launchOk : Bool
  pid : Nat
  openStdoutOk : Bool
  openStderrOk : Bool
deriving DecidableEq, Repr

/-- Embedding of `ApiServersService::spawn`.  Mirrors the source order:
launch the child (propagating the OS error with no other effect), open the
stdout log writer, open the stderr log writer (each failure propagates the
I/O error; a stdout file already created stays created), start the
background copy task (observable as one more accumulated join handle), and
finally register the instance under `name`, replacing any previous
binding. -/
def ApiServersService.spawn (w : RegistryWorld) (name : String)
    (args : ServerArguments) (env : SpawnEnv) : Except String Unit × RegistryWorld :=
  let address := buildAddress args.port
  if ¬ env.launchOk then
    (Except.error ("could not spawn an api instance on address " ++ address), w)
  else
    let names := get_output_stream_filenames name
    if ¬ env.openStdoutOk then
      (Except.error ("could not open file for stdout writing " ++ names.1), w)
    else
      let fs1 := openWriteCreate names.1 w.logsFs
      if ¬ env.openStderrOk then
        (Except.error ("could not open file for stdout writing " ++ names.2),
          { w with logsFs := fs1 })
      else
        let fs2 := openWriteCreate names.2 fs1
        let instance_ : ApiServerInstance :=
          { isLocal := true, address := address, handle := { id := some env.pid } }
        (Except.ok (),
          { svc := { instances := alistInsert name instance_ w.svc.instances,
                     logsJoinHandles := w.svc.logsJoinHandles + 1 },
            logsFs := fs2 })

/-- Embedding of `ApiServersService::archive_logs` together with the
`compress_files` call it spawns: both raw log files must exist; their
contents become the archive's two entries, named by the files' base names;
the archive `<name>_logs_archive.tar.gz` is written (the intermediate
`.tar.temp` file is created and removed within the same call and never
survives it) and then both raw log files are removed. -/
def archive_logs (name : String) (fs : List (String × FsEntry)) :
    Except String (List (String × FsEntry)) :=
  let names := get_output_stream_filenames name
  let archiveName := name ++ "_logs_archive.tar.gz"
  match alistLookup names.1 fs, alistLookup names.2 fs with
  | some (FsEntry.file c1), some (FsEntry.file c2) =>
    Except.ok
      (alistRemove names.2
        (alistRemove names.1
          (alistInsert archiveName (FsEntry.archive [(names.1, c1), (names.2, c2)]) fs)))
  | _, _ => Except.error "could not compress archive"

/-- Embedding of `ApiServersService::stop`.  The instance is removed from
the map first (`HashMap::remove`); a missing name fails with the
"not found" error, a handle without an OS id fails with the "already
finished" error — in both error cases, and on every later error, the
removal is not undone.  Then SIGTERM is sent (`unwrap`ped, modelled
infallible), the exit is awaited (outcome `waitOk`), and the logs are
archived. -/
def ApiServersService.stop (w : RegistryWorld) (name : String) (waitOk : Bool) :
    Except String Unit × RegistryWorld :=
  match alistLookup name w.svc.instances with
  | none =>
    (Except.error ("could not find api server instance with name " ++ name), w)
  | some inst =>
    let w1 : RegistryWorld :=
      { w with svc := { w.svc with instances := alistRemove name w.svc.instances } }
    match inst.handle.id with
    | none =>
      (Except.error ("instance with name " ++ name ++ " has already finished"), w1)
    | some _ =>
      if ¬ waitOk then
        (Except.error "could not await on instance closure", w1)
      else
        match archive_logs name w1.logsFs with
        | Except.error e => (Except.error e, w1)
        | Except.ok fs2 => (Except.ok (), { w1 with logsFs := fs2 })

/-- Embedding of `server_instances()` — the read-only view of the registry map. -/
def ApiServersService.server_instances (svc : ApiServersService) :
    List (String × ApiServerInstance) :=
  svc.instances

/-- Lookup after removal: removing a key makes it unfindable and leaves
every other key's binding unchanged. -/
theorem alistLookup_remove {β : Type} (k k' : String) (l : List (String × β)) :
    alistLookup k (alistRemove k' l) = if k = k' then none else alistLookup k l := by
  induction l with
  | nil => simp [alistRemove, alistLookup]
  | cons p rest ih =>
    obtain ⟨a, b⟩ := p
    simp only [alistRemove]
    by_cases hkk : k = k'
    · subst hkk
      by_cases hak : a = k
      · simp [hak, ih]
      · simp [hak, alistLookup, ih]
    · by_cases hak : a = k'
      · have hka : ¬ a = k := fun h => hkk (h ▸ hak)
        have hk2 : ¬ k' = k := fun h => hkk h.symm
        simp [hak, hka, hk2, alistLookup, ih, hkk]
      · simp [hak, alistLookup, ih, hkk]

/-- The list with a key removed is a sublist of the original. -/
theorem alistRemove_sublist {β : Type} (k : String) (l : List (String × β)) :
    List.Sublist (alistRemove k l) l := by
  induction l with
  | nil => exact List.Sublist.refl _
  | cons p rest ih =>
    obtain ⟨a, b⟩ := p
    simp only [alistRemove]
    by_cases h : a = k
    · simp only [h, if_true]
      exact List.Sublist.cons _ ih
    · simp only [h, if_false]
      exact List.Sublist.cons₂ _ ih

/-- The removed key is absent from the keys of the result. -/
theorem not_mem_keys_alistRemove_self {β : Type} (k : String) (l : List (String × β)) :
    k ∉ (alistRemove k l).map Prod.fst := by
  induction l with
  | nil => simp [alistRemove]
  | cons p rest ih =>
    obtain ⟨a, b⟩ := p
    simp only [alistRemove]
    by_cases h : a = k
    · simpa [h] using ih
    · simp only [h, if_false, List.map_cons, List.mem_cons]
      rintro (heq | hmem)
      · exact h heq.symm
      · exact ih hmem

/-- Keys stay duplicate-free under removal. -/
theorem keysNodup_remove {β : Type} (k : String) (l : List (String × β))
    (h : (l.map Prod.fst).Nodup) : ((alistRemove k l).map Prod.fst).Nodup :=
  h.sublist (List.Sublist.map _ (alistRemove_sublist k l))

/-- Keys stay duplicate-free under a replacing insert. -/
theorem keysNodup_insert {β : Type} (k : String) (v : β) (l : List (String × β))
    (h : (l.map Prod.fst).Nodup) : ((alistInsert k v l).map Prod.fst).Nodup := by
  simp only [alistInsert, List.map_cons, List.nodup_cons]
  exact ⟨not_mem_keys_alistRemove_self k l, keysNodup_remove k l h⟩

/-- After a replacing insert the key occurs exactly once. -/
theorem count_keys_insert_self {β : Type} (k : String) (v : β) (l : List (String × β)) :
    ((alistInsert k v l).map Prod.fst).count k = 1 := by
  simp only [alistInsert, List.map_cons, List.count_cons_self]
  rw [List.count_eq_zero.mpr (not_mem_keys_alistRemove_self k l)]

/-- C4-counterexample: the raw log files `spawn` creates are named
`mwa_<name>_stdout` / `mwa_<name>_stderr`, not `<name>_stdout` /
`<name>_stderr` as the claim states: after a successful `spawn("a", …)`
on a fresh registry, the logs directory holds `mwa_a_stdout` and
`mwa_a_stderr` and no file named `a_stdout` or `a_stderr`. -/
theorem C4_counterexample_raw_log_file_names :
    (alistLookup "a_stdout"
      (ApiServersService.spawn { svc := ApiServersService.new, logsFs := [] } "a"
        { port := 4000, dir := ["d"], watch_dir := false }
        { launchOk := true, pid := 7, openStdoutOk := true, openStderrOk := true }).snd.logsFs
      = none) ∧
    (alistLookup "a_stderr"
      (ApiServersService.spawn { svc := ApiServersService.new, logsFs := [] } "a"
        { port := 4000, dir := ["d"], watch_dir := false }
        { launchOk := true, pid := 7, openStdoutOk := true, openStderrOk := true }).snd.logsFs
      = none) ∧
    (alistLookup "mwa_a_stdout"
      (ApiServersService.spawn { svc := ApiServersService.new, logsFs := [] } "a"
        { port := 4000, dir := ["d"], watch_dir := false }
        { launchOk := true, pid := 7, openStdoutOk := true, openStderrOk := true }).snd.logsFs
      = some (FsEntry.file "")) ∧
    (alistLookup "mwa_a_stderr"
      (ApiServersService.spawn { svc := ApiServersService.new, logsFs := [] } "a"
        { port := 4000, dir := ["d"], watch_dir := false }
        { launchOk := true, pid := 7, openStdoutOk := true, openStderrOk := true }).snd.logsFs
      = some (FsEntry.file "")) ∧
    (ApiServersService.spawn { svc := ApiServersService.new, logsFs := [] } "a"
      { port := 4000, dir := ["d"], watch_dir := false }
      { launchOk := true, pid := 7, openStdoutOk := true, openStderrOk := true }).fst
      = Except.ok () := by
  decide

/-- The archive file name never collides with either raw log file name
(their lengths differ by the fixed affixes). -/
theorem archiveName_ne_logNames (name : String) :
    name ++ "_logs_archive.tar.gz" ≠ "mwa_" ++ name ++ "_stdout" ∧
    name ++ "_logs_archive.tar.gz" ≠ "mwa_" ++ name ++ "_stderr" := by
  have hsuffix : ("_logs_archive.tar.gz" : String).length = 20 := rfl
  have hmwa : ("mwa_" : String).length = 4 := rfl
  have hout : ("_stdout" : String).length = 7 := rfl
  have herr : ("_stderr" : String).length = 7 := rfl
  constructor <;>
    · intro h
      have hlen := congrArg String.length h
      simp only [String.length_append, hsuffix, hmwa, hout, herr] at hlen
      omega

/-- C4-amended: after `stop(name)` returns success, the registry no
longer contains `name`; the two raw log files `mwa_<name>_stdout` and
`mwa_<name>_stderr` (the names `spawn` created them under) no longer
exist in the logs directory; and `<name>_logs_archive.tar.gz` exists,
containing exactly the two log streams with the contents the raw files
had when `stop` ran. -/
theorem C4_amended_stop_removes_instance_and_archives_logs
    (w : RegistryWorld) (name : String) (waitOk : Bool)
    (hok : (ApiServersService.stop w name waitOk).fst = Except.ok ()) :
    alistLookup name (ApiServersService.stop w name waitOk).snd.svc.server_instances = none ∧
    alistLookup ("mwa_" ++ name ++ "_stdout")
      (ApiServersService.stop w name waitOk).snd.logsFs = none ∧
    alistLookup ("mwa_" ++ name ++ "_stderr")
      (ApiServersService.stop w name waitOk).snd.logsFs = none ∧
    (∃ c1 c2,
      alistLookup ("mwa_" ++ name ++ "_stdout") w.logsFs = some (FsEntry.file c1) ∧
      alistLookup ("mwa_" ++ name ++ "_stderr") w.logsFs = some (FsEntry.file c2) ∧
      alistLookup (name ++ "_logs_archive.tar.gz")
        (ApiServersService.stop w name waitOk).snd.logsFs =
        some (FsEntry.archive
          [("mwa_" ++ name ++ "_stdout", c1), ("mwa_" ++ name ++ "_stderr", c2)])) := by
  cases hlook : alistLookup name w.svc.instances with
  | none => simp [ApiServersService.stop, hlook] at hok
  | some inst =>
    cases hid : inst.handle.id with
    | none => simp [ApiServersService.stop, hlook, hid] at hok
    | some pid =>
      by_cases hwait : waitOk
      · cases h1 : alistLookup ("mwa_" ++ name ++ "_stdout") w.logsFs with
        | none =>
          simp [ApiServersService.stop, archive_logs, get_output_stream_filenames,
            hlook, hid, hwait, h1] at hok
        | some e1 =>
          cases h2 : alistLookup ("mwa_" ++ name ++ "_stderr") w.logsFs with
          | none =>
            cases e1 <;>
              simp [ApiServersService.stop, archive_logs, get_output_stream_filenames,
                hlook, hid, hwait, h1, h2] at hok
          | some e2 =>
            cases e1 with
            | archive es =>
              simp [ApiServersService.stop, archive_logs, get_output_stream_filenames,
                hlook, hid, hwait, h1, h2] at hok
            | file c1 =>
              cases e2 with
              | archive es =>
                simp [ApiServersService.stop, archive_logs, get_output_stream_filenames,
                  hlook, hid, hwait, h1, h2] at hok
              | file c2 =>
                have hne := archiveName_ne_logNames name
                refine ⟨?_, ?_, ?_, c1, c2, rfl, rfl, ?_⟩ <;>
                  simp [ApiServersService.stop, ApiServersService.server_instances,
                    archive_logs, get_output_stream_filenames, hlook, hid, hwait,
                    h1, h2, alistLookup_remove, alistLookup_insert_self,
                    hne.1, hne.2]
      · simp [ApiServersService.stop, hlook, hid, hwait] at hok

/-- Witness for C4-amended: a concrete world holding one instance named
`"a"` with pid 7 and the two raw log files; `stop("a")` succeeds there and
afterwards the instance and both raw log files are gone. -/
theorem C4_amended_witness :
    alistLookup "a"
      (ApiServersService.stop
        { svc := { instances := [("a", { isLocal := true, address := "127.0.0.1:4000",
                                         handle := { id := some 7 } })],
                   logsJoinHandles := 1 },
          logsFs := [("mwa_a_stdout", FsEntry.file "out"),
                     ("mwa_a_stderr", FsEntry.file "err")] }
        "a" true).snd.svc.server_instances = none ∧
    alistLookup "mwa_a_stdout"
      (ApiServersService.stop
        { svc := { instances := [("a", { isLocal := true, address := "127.0.0.1:4000",
                                         handle := { id := some 7 } })],
                   logsJoinHandles := 1 },
          logsFs := [("mwa_a_stdout", FsEntry.file "out"),
                     ("mwa_a_stderr", FsEntry.file "err")] }
        "a" true).snd.logsFs = none ∧
    alistLookup "mwa_a_stderr"
      (ApiServersService.stop
        { svc := { instances := [("a", { isLocal := true, address := "127.0.0.1:4000",
                                         handle := { id := some 7 } })],
                   logsJoinHandles := 1 },
          logsFs := [("mwa_a_stdout", FsEntry.file "out"),
                     ("mwa_a_stderr", FsEntry.file "err")] }
        "a" true).snd.logsFs = none := by
  have h := C4_amended_stop_removes_instance_and_archives_logs
    { svc := { instances := [("a", { isLocal := true, address := "127.0.0.1:4000",
                                     handle := { id := some 7 } })],
               logsJoinHandles := 1 },
      logsFs := [("mwa_a_stdout", FsEntry.file "out"),
                 ("mwa_a_stderr", FsEntry.file "err")] }
    "a" true (by decide)
  exact ⟨h.1, h.2.1, h.2.2.1⟩

/-- C5: whenever `spawn` returns an error — failed binary launch or a
failed open of either log file — the instance map is unchanged, and in
particular a name absent before is still absent. -/
theorem C5_spawn_error_registers_no_instance (w : RegistryWorld) (name : String)
    (args : ServerArguments) (env : SpawnEnv) (e : String)
    (herr : (ApiServersService.spawn w name args env).fst = Except.error e) :
    (ApiServersService.spawn w name args env).snd.svc.instances = w.svc.instances ∧
    (alistLookup name w.svc.instances = none →
      alistLookup name
        (ApiServersService.spawn w name args env).snd.svc.server_instances = none) := by
  unfold ApiServersService.spawn at herr ⊢
  by_cases h1 : env.launchOk
  · by_cases h2 : env.openStdoutOk
    · by_cases h3 : env.openStderrOk
      · simp [h1, h2, h3] at herr
      · simp only [h1, h2, h3, not_false_iff, not_true, ite_true, ite_false,
          Bool.not_false, Bool.not_true] at herr ⊢
        simp [ApiServersService.server_instances]
    · simp only [h1, h2, not_false_iff, not_true, ite_true, ite_false,
        Bool.not_false, Bool.not_true] at herr ⊢
      simp [ApiServersService.server_instances]
  · simp only [h1, not_false_iff, ite_true, Bool.not_false] at herr ⊢
    simp [ApiServersService.server_instances]

/-- Witness for C5: a spawn whose worker binary fails to launch on a
registry already holding one unrelated instance. -/
theorem C5_witness :
    (ApiServersService.spawn
      { svc := { instances := [("b", { isLocal := true, address := "127.0.0.1:4001",
                                       handle := { id := some 9 } })],
                 logsJoinHandles := 1 },
        logsFs := [] }
      "a" { port := 4000, dir := [], watch_dir := false }
      { launchOk := false, pid := 0, openStdoutOk := true, openStderrOk := true }).snd.svc.instances
      = [("b", { isLocal := true, address := "127.0.0.1:4001",
                 handle := { id := some 9 } })] :=
  (C5_spawn_error_registers_no_instance
    { svc := { instances := [("b", { isLocal := true, address := "127.0.0.1:4001",
                                     handle := { id := some 9 } })],
               logsJoinHandles := 1 },
      logsFs := [] }
    "a" { port := 4000, dir := [], watch_dir := false }
    { launchOk := false, pid := 0, openStdoutOk := true, openStderrOk := true }
    "could not spawn an api instance on address 127.0.0.1:4000" (by decide)).1

/-- One registry operation: a `spawn` (with its environment outcomes) or a
`stop`. -/
inductive RegistryOp where
  | spawnOp (name : String) (args : ServerArguments) (env : SpawnEnv)
  | stopOp (name : String) (waitOk : Bool)
deriving DecidableEq, Repr

/-- The state reached after one registry operation. -/
def applyOp (w : RegistryWorld) : RegistryOp → RegistryWorld
  | RegistryOp.spawnOp n a e => (ApiServersService.spawn w n a e).snd
  | RegistryOp.stopOp n wk => (ApiServersService.stop w n wk).snd

/-- The state reached after a sequence of registry operations. -/
def runOps (w : RegistryWorld) : List RegistryOp → RegistryWorld
  | [] => w
  | op :: rest => runOps (applyOp w op) rest

/-- A freshly constructed registry (`ApiServersService::new`) over an
arbitrary pre-existing logs directory. -/
def initialWorld (fs0 : List (String × FsEntry)) : RegistryWorld :=
  { svc := ApiServersService.new, logsFs := fs0 }

/-- The instance map's keys after any single operation remain
duplicate-free. -/
theorem keysNodup_applyOp (w : RegistryWorld) (op : RegistryOp)
    (h : (w.svc.instances.map Prod.fst).Nodup) :
    ((applyOp w op).svc.instances.map Prod.fst).Nodup := by
  cases op with
  | spawnOp n a e =>
    simp only [applyOp, ApiServersService.spawn]
    by_cases h1 : e.launchOk <;> by_cases h2 : e.openStdoutOk <;>
      by_cases h3 : e.openStderrOk <;>
      simp [h1, h2, h3, h, keysNodup_insert]
  | stopOp n wk =>
    simp only [applyOp, ApiServersService.stop]
    cases hlook : alistLookup n w.svc.instances with
    | none => simpa using h
    | some inst =>
      cases hid : inst.handle.id with
      | none => simpa [hid] using keysNodup_remove n _ h
      | some pid =>
        by_cases hwait : wk
        · cases harch : archive_logs n w.logsFs with
          | error e => simpa [hid, hwait, harch] using keysNodup_remove n _ h
          | ok fs2 => simpa [hid, hwait, harch] using keysNodup_remove n _ h
        · simpa [hid, hwait] using keysNodup_remove n _ h

/-- The instance map's keys stay duplicate-free along any operation
sequence. -/
theorem keysNodup_runOps (ops : List RegistryOp) (w : RegistryWorld)
    (h : (w.svc.instances.map Prod.fst).Nodup) :
    ((runOps w ops).svc.instances.map Prod.fst).Nodup := by
  induction ops generalizing w with
  | nil => exact h
  | cons op rest ih => exact ih (applyOp w op) (keysNodup_applyOp w op h)

/-- C6: starting from a fresh registry, after any sequence of spawn and
stop operations every name occurs at most once in `server_instances()`;
and whenever a `spawn(name, …)` succeeds — also when `name` was already
registered — the resulting map binds `name` exactly once, to the newly
spawned instance (the previous entry is overwritten, not duplicated, and
registration does not fail because of the existing entry). -/
theorem C6_registry_name_uniqueness :
    (∀ (fs0 : List (String × FsEntry)) (ops : List RegistryOp) (n : String),
      (((runOps (initialWorld fs0) ops).svc.server_instances.map Prod.fst).count n) ≤ 1) ∧
    (∀ (w : RegistryWorld) (n : String) (args : ServerArguments) (env : SpawnEnv),
      env.launchOk = true → env.openStdoutOk = true → env.openStderrOk = true →
      (ApiServersService.spawn w n args env).fst = Except.ok () ∧
      (((ApiServersService.spawn w n args env).snd.svc.server_instances.map
        Prod.fst).count n) = 1 ∧
      alistLookup n (ApiServersService.spawn w n args env).snd.svc.server_instances =
        some { isLocal := true, address := buildAddress args.port,
               handle := { id := some env.pid } }) := by
  constructor
  · intro fs0 ops n
    have hnodup := keysNodup_runOps ops (initialWorld fs0) (by simp [initialWorld,
      ApiServersService.new])
    exact (List.nodup_iff_count_le_one.mp hnodup) n
  · intro w n args env h1 h2 h3
    refine ⟨?_, ?_, ?_⟩ <;>
      simp [ApiServersService.spawn, ApiServersService.server_instances, h1, h2, h3,
        count_keys_insert_self, alistLookup_insert_self]

/-- Witness for C6: a successful second spawn under the already-registered
name `"w1"` leaves exactly one entry for `"w1"`. -/
theorem C6_witness :
    (((ApiServersService.spawn
      { svc := { instances := [("w1", { isLocal := true, address := "127.0.0.1:4000",
                                        handle := { id := some 7 } })],
                 logsJoinHandles := 1 },
        logsFs := [("mwa_w1_stdout", FsEntry.file ""),
                   ("mwa_w1_stderr", FsEntry.file "")] }
      "w1" { port := 4001, dir := [], watch_dir := false }
      { launchOk := true, pid := 8, openStdoutOk := true,
        openStderrOk := true }).snd.svc.server_instances.map Prod.fst).count "w1") = 1 :=
  (C6_registry_name_uniqueness.2
    { svc := { instances := [("w1", { isLocal := true, address := "127.0.0.1:4000",
                                      handle := { id := some 7 } })],
               logsJoinHandles := 1 },
      logsFs := [("mwa_w1_stdout", FsEntry.file ""),
                 ("mwa_w1_stderr", FsEntry.file "")] }
    "w1" { port := 4001, dir := [], watch_dir := false }
    { launchOk := true, pid := 8, openStdoutOk := true, openStderrOk := true }
    rfl rfl rfl).2.1

/-- C9: when `stop(name)` hits the "already finished" path — the named
instance exists but its handle has no OS id — the error is returned only
after `HashMap::remove` has run, so the instance is gone: afterwards the
registry no longer contains `name` and a second `stop(name)` fails with
the "not found" error. -/
theorem C9_stop_already_finished_removes_instance (w : RegistryWorld) (name : String)
    (inst : ApiServerInstance) (waitOk waitOk' : Bool)
    (hlook : alistLookup name w.svc.instances = some inst)
    (hid : inst.handle.id = none) :
    (ApiServersService.stop w name waitOk).fst =
      Except.error ("instance with name " ++ name ++ " has already finished") ∧
    alistLookup name
      (ApiServersService.stop w name waitOk).snd.svc.server_instances = none ∧
    (ApiServersService.stop (ApiServersService.stop w name waitOk).snd name waitOk').fst =
      Except.error ("could not find api server instance with name " ++ name) := by
  have hpost : alistLookup name
      (ApiServersService.stop w name waitOk).snd.svc.instances = none := by
    simp [ApiServersService.stop, hlook, hid, alistLookup_remove]
  refine ⟨?_, ?_, ?_⟩
  · simp [ApiServersService.stop, hlook, hid]
  · simpa [ApiServersService.server_instances] using hpost
  · generalize hW : (ApiServersService.stop w name waitOk).snd = w2 at hpost ⊢
    simp [ApiServersService.stop, hpost]

/-- Witness for C9: a world holding one instance `"a"` whose handle has no
OS id. -/
theorem C9_witness :
    (ApiServersService.stop
      { svc := { instances := [("a", { isLocal := true, address := "127.0.0.1:4000",
                                       handle := { id := none } })],
                 logsJoinHandles := 0 },
        logsFs := [] }
      "a" true).fst =
      Except.error ("instance with name " ++ "a" ++ " has already finished") :=
  (C9_stop_already_finished_removes_instance
    { svc := { instances := [("a", { isLocal := true, address := "127.0.0.1:4000",
                                     handle := { id := none } })],
               logsJoinHandles := 0 },
      logsFs := [] }
    "a" { isLocal := true, address := "127.0.0.1:4000", handle := { id := none } }
    true true rfl rfl).1

/-! ## Archive codec — embedded from `src/common/tarflate.rs`

`compress_files` iterates the source paths; for each it derives the
archive entry name from `Path::file_name()` — the final normal component
of the path — and fails if the path has no such component.  Paths are
modelled at the level of Rust's `Components` iterator (which normalises
away interior `.` components), so a path is a list of components. -/

/-- One component of a Rust `Path`, as yielded by `Path::components()`. -/
inductive PathComponent where
  | rootDir
  | curDir
  | parentDir
  | normal (s : String)
deriving DecidableEq, Repr

/-- A Rust `Path`, as its (already normalised) component list. -/
def RsPath := List PathComponent

/-- Embedding of `Path::file_name()`: the last component when it is a
normal one, `None` when the path is empty or ends in the root or in
`..` (or is just `.`). -/
def file_name (p : RsPath) : Option String :=
  match List.getLast? p with
  | some (PathComponent.normal s) => some s
  | _ => none

/-- The entry names `compress_files` appends, in source-path order: the
loop body runs `src_path.file_name().ok_or(...)?` and then
`append_path_with_name(src_path, file_name)`, so the first path without a
resolvable file name aborts with an error. -/
def compress_entries : List RsPath → Except String (List String)
  | [] => Except.ok []
  | p :: rest =>
    match file_name p with
    | none => Except.error "provided file name can not be archived"
    | some base =>
      match compress_entries rest with
      | Except.error e => Except.error e
      | Except.ok es => Except.ok (base :: es)

/-- Embedding of `compress_files(out, src_paths)`: on success the value is
the list of entry names written into the archive at `out` (the temporary
`.temp` tar file is created and removed within the call; the surrounding
file I/O is not modelled, claims about it being outside scope). -/
def compress_files (out : RsPath) (src_paths : List RsPath) :
    Except String (List String) :=
  let _ := out
  compress_entries src_paths

/-- C8: `compress` fails for every source list containing a path without
a resolvable file name, and on success the archive entries are exactly
the source paths' base names, in order. -/
theorem C8_compress_base_names_and_rejection :
    (∀ (out : RsPath) (srcs : List RsPath),
      (∃ p, p ∈ srcs ∧ file_name p = none) →
      (compress_files out srcs).isOk = false) ∧
    (∀ (out : RsPath) (srcs : List RsPath) (entries : List String),
      compress_files out srcs = Except.ok entries →
      srcs.map file_name = entries.map some) := by
  constructor
  · intro out srcs h
    obtain ⟨p, hmem, hnone⟩ := h
    simp only [compress_files]
    induction srcs with
    | nil => cases hmem
    | cons q rest ih =>
      simp only [compress_entries]
      rcases List.mem_cons.mp hmem with heq | hmem'
      · subst heq
        simp [hnone, Except.isOk, Except.toBool]
      · cases hq : file_name q with
        | none => simp [Except.isOk, Except.toBool]
        | some base =>
          have := ih hmem'
          cases hrest : compress_entries rest with
          | error e => simp [Except.isOk, Except.toBool]
          | ok es => simp [hrest, Except.isOk, Except.toBool] at this
  · intro out srcs
    induction srcs with
    | nil =>
      intro entries h
      simp only [compress_files, compress_entries] at h
      injection h with h
      simp [← h]
    | cons q rest ih =>
      intro entries h
      simp only [compress_files, compress_entries] at h
      cases hq : file_name q with
      | none => rw [hq] at h; exact Except.noConfusion h
      | some base =>
        rw [hq] at h
        cases hrest : compress_entries rest with
        | error e => rw [hrest] at h; exact Except.noConfusion h
        | ok es =>
          rw [hrest] at h
          injection h with h
          subst h
          simp only [List.map_cons, hq]
          rw [ih es hrest]

/-- Witness for C8: a list whose second path is `..` (no file name) is
rejected. -/
theorem C8_witness :
    (compress_files [PathComponent.normal "out.tar.gz"]
      [[PathComponent.normal "logs", PathComponent.normal "a.txt"],
       [PathComponent.parentDir]]).isOk = false :=
  C8_compress_base_names_and_rejection.1 [PathComponent.normal "out.tar.gz"]
    [[PathComponent.normal "logs", PathComponent.normal "a.txt"],
     [PathComponent.parentDir]]
    ⟨[PathComponent.parentDir], by simp, rfl⟩

/-! ## Idle-shutdown accept loop — embedded from `src/server.rs`

`serve`'s loop selects, on every iteration, between `listener.accept()`
and a freshly constructed `wait_for_shutdown_condition(notify, idle)`
future.  Because that future — and the `sleep(idle)` inside it — is
re-created from scratch on every loop iteration, an accepted connection
discards the pending sleep entirely: the next iteration's idle deadline
is the accept time plus the full timeout, independent of the previous
deadline.  The model is discrete-event: `accepts` is the (strictly
increasing) list of connection-arrival times, `base` the time the current
iteration began (0 at start, else the last accept time), and the result
is the time the loop leaves the `Running` state (`none` if no shutdown
condition can ever fire). -/

/-- The two non-timer shutdown triggers of `wait_for_shutdown_condition`:
the manual notify endpoint and the interrupt signal, each as the absolute
time it fires (if ever). -/
structure ShutdownTriggers where
  notifyAt : Option Nat
  ctrlcAt : Option Nat
deriving DecidableEq, Repr

/-- Earliest of two optional instants. -/
def optMin : Option Nat → Option Nat → Option Nat
  | none, b => b
  | some x, none => some x
  | some x, some y => some (min x y)

/-- The instant `wait_for_shutdown_condition` resolves, given the idle
deadline of the current loop iteration: the first of the notify trigger,
the interrupt, and — only when the idle timeout is configured — the idle
deadline (`select!` with the sleep branch guarded by
`idle_shutdown_timeout.is_some()`). -/
def shutdown_condition_time (trig : ShutdownTriggers) (idleDeadline : Option Nat) :
    Option Nat :=
  optMin trig.notifyAt (optMin trig.ctrlcAt idleDeadline)

/-- The accept loop of `serve`: each iteration races the next accept
against this iteration's shutdown condition, whose idle deadline is
`base + T` because the `sleep` is re-created each iteration.  An accept
strictly before the condition wins the race and restarts the loop with
itself as the new base. -/
def serveLoop (trig : ShutdownTriggers) (idle : Option Nat) :
    List Nat → Nat → Option Nat
  | [], base => shutdown_condition_time trig (idle.map (fun T => base + T))
  | t :: rest, base =>
    match shutdown_condition_time trig (idle.map (fun T => base + T)) with
    | none => serveLoop trig idle rest t
    | some c => if t < c then serveLoop trig idle rest t else some c

/-- No manual trigger and no interrupt. -/
def noTriggers : ShutdownTriggers := { notifyAt := none, ctrlcAt := none }

/-- C7: with the idle timeout enabled at duration `T` and no other
trigger, the loop leaves `Running` at time `T` when no connection is
accepted; an accepted connection fully resets the deadline — the
continuation after an accept at time `t` is independent of the previous
deadline and equal to restarting with deadline `t + T` — and a single
connection at `0 < t < T` (e.g. `t = 0.9·T`, concretely `9` against
`T = 10`) keeps the loop `Running` strictly past the original `T`
mark, leaving it only at `t + T`. -/
theorem C7_idle_timeout_reset_not_extended :
    (∀ T : Nat, serveLoop noTriggers (some T) [] 0 = some T) ∧
    (∀ (T : Nat) (rest : List Nat) (t base base' : Nat),
      t < base + T → t < base' + T →
      serveLoop noTriggers (some T) (t :: rest) base =
        serveLoop noTriggers (some T) (t :: rest) base') ∧
    (∀ (T : Nat) (rest : List Nat) (t base : Nat), t < base + T →
      serveLoop noTriggers (some T) (t :: rest) base =
        serveLoop noTriggers (some T) rest t) ∧
    (∀ T t : Nat, 0 < t → t < T →
      serveLoop noTriggers (some T) [t] 0 = some (t + T) ∧ T < t + T) ∧
    (serveLoop noTriggers (some 10) [9] 0 = some 19 ∧ 10 < 19) := by
  refine ⟨?_, ?_, ?_, ?_, by decide⟩
  · intro T
    simp [serveLoop, shutdown_condition_time, optMin, noTriggers]
  · intro T rest t base base' h h'
    simp [serveLoop, shutdown_condition_time, optMin, noTriggers, h, h']
  · intro T rest t base h
    simp [serveLoop, shutdown_condition_time, optMin, noTriggers, h]
  · intro T t ht hT
    constructor
    · simp [serveLoop, shutdown_condition_time, optMin, noTriggers, hT]
    · omega

/-- Witness for C7: the concrete `0.9·T` instance `T = 10`, accept at
`t = 9`. -/
theorem C7_witness :
    serveLoop noTriggers (some 10) [9] 0 = some 19 ∧ 10 < 19 :=
  C7_idle_timeout_reset_not_extended.2.2.2.1 10 9 (by decide) (by decide)

end MpvWebClient
